import Mathlib

/-!
Shallow embedding of the encrypted room-messaging engine:
`src/utils/encryption.ts` (EncryptionService), the message service
(`MessageService`: chat rooms, send/get/edit/delete of messages),
`src/routes/message-routes.ts` (HTTP handlers) and
`src/socket/socket-handlers.ts` (socket fan-out).

Byte strings (plaintexts, keys, ciphertexts) are `List Nat`; Mongo object
ids are `String`, generated from a counter in the database state;
`Date.now` values are `Nat` instants passed in explicitly; process
randomness is an explicit entropy stream `Nat → Nat`.
-/

namespace EncryptionService

/-- Modelled from the spec: the key length from `config.encryption.keyLength`
(the environment config module is not in the source tree; the spec says keys
are "cryptographically random, fixed length"). The concrete value matches
AES-256 key bytes. -/
def keyLength : Nat := 32

/-- Modelled from the spec: the IV length from `config.encryption.ivLength`
(the environment config module is not in the source tree). -/
def ivLength : Nat := 16

/-- Model of `crypto.randomBytes n` reading `n` bytes from the entropy
stream `rng`. -/
def randomBytes (n : Nat) (rng : Nat → Nat) : List Nat :=
  (List.range n).map rng

/-- Byte `i` of the keystream that `crypto.createCipher` derives from the
key/password alone. `createCipher` (as opposed to `createCipheriv`) derives
all cipher state deterministically from the password via EVP_BytesToKey and
accepts no IV, so the keystream is a function of the key only. -/
def keyByte (key : List Nat) (i : Nat) : Nat :=
  key.getD (i % key.length) 0

/-- The deterministic cipher core underlying `cipher.update`/`cipher.final`
for a `createCipher`-constructed cipher: a self-inverse byte-wise transform
driven solely by the key-derived keystream (no IV input). -/
def cipherCore (key : List Nat) : Nat → List Nat → List Nat
  | _, [] => []
  | i, c :: rest => (c ^^^ keyByte key i) :: cipherCore key (i + 1) rest

/-- The authentication tag `cipher.getAuthTag()` — a deterministic function
of the key-derived cipher state and the ciphertext. -/
def tagOf (key ct : List Nat) : Nat :=
  (key ++ ct).foldl (fun a c => a * 257 + c + 1) 7

/-- The `{ encrypted, iv, tag }` object returned by
`EncryptionService.encrypt` and persisted (JSON-encoded) as
`encryptedContent`. -/
structure EncryptedData where
  encrypted : List Nat
  iv : List Nat
  tag : Option Nat
deriving DecidableEq

/-- `EncryptionService.generateKey`: `keyLength` random bytes. -/
def generateKey (rng : Nat → Nat) : List Nat :=
  randomBytes keyLength rng

/-- `EncryptionService.encrypt`: draws a random `iv` from the entropy
stream, runs the `createCipher` core on the plaintext — note the generated
`iv` is NOT passed to `createCipher`, which takes only the algorithm and the
key — and attaches the auth tag. -/
def encrypt (text key : List Nat) (rng : Nat → Nat) : EncryptedData :=
  let encrypted := cipherCore key 0 text
  { encrypted := encrypted
    iv := randomBytes ivLength rng
    tag := some (tagOf key encrypted) }

/-- `EncryptionService.decrypt`: when a tag is present it is checked
(`setAuthTag` then `decipher.final` throws on mismatch, modelled as `none`);
the ciphertext is inverted with the same key-derived core. The stored `iv`
is likewise unused by `createDecipher`. -/
def decrypt (d : EncryptedData) (key : List Nat) : Option (List Nat) :=
  match d.tag with
  | some t =>
      if t = tagOf key d.encrypted then some (cipherCore key 0 d.encrypted)
      else none
  | none => some (cipherCore key 0 d.encrypted)

theorem cipherCore_cipherCore (key : List Nat) (i : Nat) (text : List Nat) :
    cipherCore key i (cipherCore key i text) = text := by
  induction text generalizing i with
  | nil => rfl
  | cons c rest ih =>
      simp [cipherCore, Nat.xor_cancel_right, ih]

end EncryptionService

/-- The `messageType` union `'text' | 'file' | 'image' | 'system'` of the
`Message` interface. -/
inductive MessageType where
  | text
  | file
  | image
  | system
deriving DecidableEq

/-- The `Message` interface of the message service. `encryptedContent` is
persisted as `JSON.stringify` of the encrypt result; the JSON encoding is
lossless, so it is modelled as the structured value. -/
structure Message where
  _id : Option String := none
  chatId : String
  senderId : String
  senderName : String
  content : List Nat
  encryptedContent : Option EncryptionService.EncryptedData := none
  messageType : MessageType
  timestamp : Nat := 0
  edited : Option Bool := none
  editedAt : Option Nat := none
  replyTo : Option String := none
  reactions : List (String × List String) := []
  fileUrl : Option String := none
  fileName : Option String := none
  fileSize : Option Nat := none
deriving DecidableEq

/-- The `ChatRoom` interface of the message service. -/
structure ChatRoom where
  _id : Option String := none
  name : String
  description : Option String := none
  participants : List String
  createdBy : String
  createdAt : Nat := 0
  isPrivate : Bool
  encryptionKey : Option (List Nat) := none
deriving DecidableEq

/-- The Mongo database as seen by the message service: the `chatrooms` and
`messages` collections, plus the ObjectId generator modelled as a counter. -/
structure DbState where
  chatrooms : List ChatRoom := []
  messages : List Message := []
  nextId : Nat := 0
deriving DecidableEq

/-- Remove the first element satisfying `p` (Mongo `deleteOne`). -/
def removeFirst {α : Type} (p : α → Bool) : List α → List α
  | [] => []
  | x :: xs => if p x then xs else x :: removeFirst p xs

/-- Update the first element satisfying `p` (Mongo `updateOne` with a
`$set`). -/
def updateFirst {α : Type} (p : α → Bool) (f : α → α) : List α → List α
  | [] => []
  | x :: xs => if p x then f x :: xs else x :: updateFirst p f xs

/-- Insert into a list kept in descending `key` order. -/
def insertDesc {α : Type} (key : α → Nat) (x : α) : List α → List α
  | [] => [x]
  | y :: ys => if key y ≤ key x then x :: y :: ys else y :: insertDesc key x ys

/-- Mongo `.sort(field, -1)`: the collection ordered by `key` descending. -/
def sortDesc {α : Type} (key : α → Nat) : List α → List α
  | [] => []
  | x :: xs => insertDesc key x (sortDesc key xs)

namespace MessageService

/-- The sentinel written by `getMessages` when a record fails to decrypt:
the char codes of the string assigned to `message.content` in the catch
branch. -/
def decryptionFailedMarker : List Nat :=
  "[Encrypted message - decryption failed]".data.map Char.toNat

/-- `MessageService.createChatRoom`: stamps `createdAt`, binds the single
process-wide static key `serviceKey` (the class field `encryptionKey`,
initialised once to `EncryptionService.generateKey()`), inserts the room and
returns it with the Mongo-assigned id. -/
def createChatRoom (serviceKey : List Nat) (roomData : ChatRoom) (now : Nat)
    (st : DbState) : ChatRoom × DbState :=
  let room : ChatRoom :=
    { roomData with
        _id := some (toString st.nextId)
        createdAt := now
        encryptionKey := some serviceKey }
  (room, { st with chatrooms := st.chatrooms ++ [room], nextId := st.nextId + 1 })

/-- `MessageService.getChatRoom`: `findOne` on the `chatrooms` collection by
`_id`. -/
def getChatRoom (roomId : String) (st : DbState) : Option ChatRoom :=
  st.chatrooms.find? (fun r => r._id == some roomId)

/-- `MessageService.getUserChatRooms`: rooms whose `participants` contain
the user, sorted by `createdAt` descending. -/
def getUserChatRooms (userId : String) (st : DbState) : List ChatRoom :=
  sortDesc (·.createdAt) (st.chatrooms.filter (fun r => r.participants.contains userId))

/-- `MessageService.sendMessage`: looks up the room; if the room or its key
is missing, throws `Chat room encryption key not found`; otherwise encrypts
the content, builds the message by spreading `messageData` — so the
plaintext `content` field is part of the inserted document — attaches the
JSON-encoded encrypt result and the timestamp, and inserts it. -/
def sendMessage (messageData : Message) (now : Nat) (rng : Nat → Nat)
    (st : DbState) : Except String (Message × DbState) :=
  match (getChatRoom messageData.chatId st).bind (·.encryptionKey) with
  | none => .error "Chat room encryption key not found"
  | some key =>
      let encrypted := EncryptionService.encrypt messageData.content key rng
      let message : Message :=
        { messageData with
            _id := some (toString st.nextId)
            encryptedContent := some encrypted
            timestamp := now }
      .ok (message, { st with messages := st.messages ++ [message], nextId := st.nextId + 1 })

/-- The newest-first page read by `getMessages`: `find({chatId})`, sort by
`timestamp` descending, then the cursor applies `skip` before `limit`. -/
def newestFirstPage (chatId : String) (limit skip : Nat) (st : DbState) :
    List Message :=
  ((sortDesc (·.timestamp) (st.messages.filter (fun m => m.chatId == chatId))).drop skip).take limit

/-- The per-record decryption step of `getMessages`: for a record with an
`encryptedContent`, parse and decrypt it into `content`; a decryption
failure is caught and replaced by the sentinel marker. -/
def decryptRecord (key : List Nat) (m : Message) : Message :=
  match m.encryptedContent with
  | some e =>
      match EncryptionService.decrypt e key with
      | some p => { m with content := p }
      | none => { m with content := decryptionFailedMarker }
  | none => m

/-- `MessageService.getMessages`: reads the newest-first page, decrypts each
record in place when the room and its key exist, and returns the page
reversed (ascending order). -/
def getMessages (chatId : String) (limit skip : Nat) (st : DbState) :
    List Message :=
  let page := newestFirstPage chatId limit skip st
  let decrypted :=
    match (getChatRoom chatId st).bind (·.encryptionKey) with
    | some key => page.map (decryptRecord key)
    | none => page
  decrypted.reverse

/-- `MessageService.deleteMessage`: `deleteOne({_id, senderId})` — the
filter requires the requester to be the sender; returns
`deletedCount > 0`. -/
def deleteMessage (messageId userId : String) (st : DbState) :
    Bool × DbState :=
  let p := fun (m : Message) => m._id == some messageId && m.senderId == userId
  if st.messages.any p then
    (true, { st with messages := removeFirst p st.messages })
  else
    (false, st)

/-- `MessageService.editMessage`: `findOne({_id, senderId})` (returns
`false` when absent), looks up the room key (returns `false` when absent),
re-encrypts, then `updateOne` with the same filter setting plaintext
`content`, `encryptedContent`, `edited` and `editedAt`; returns
`modifiedCount > 0`, i.e. whether the update actually changed the
document. -/
def editMessage (messageId userId : String) (newContent : List Nat)
    (now : Nat) (rng : Nat → Nat) (st : DbState) : Bool × DbState :=
  let p := fun (m : Message) => m._id == some messageId && m.senderId == userId
  match st.messages.find? p with
  | none => (false, st)
  | some message =>
      match (getChatRoom message.chatId st).bind (·.encryptionKey) with
      | none => (false, st)
      | some key =>
          let encrypted := EncryptionService.encrypt newContent key rng
          let upd := fun (m : Message) =>
            { m with
                content := newContent
                encryptedContent := some encrypted
                edited := some true
                editedAt := some now }
          let newMessages := updateFirst p upd st.messages
          (!(newMessages == st.messages), { st with messages := newMessages })

end MessageService

/-- The authenticated principal attached to `req.user` / `socket.user` by
the auth middleware. -/
structure Principal where
  id : String
  displayName : Option String := none
  email : String := ""
deriving DecidableEq

namespace messageRoutes

/-- A hexadecimal character, by char code: `0-9`, `a-f` or `A-F`. -/
def isHexChar (c : Char) : Bool :=
  (48 ≤ c.toNat && c.toNat ≤ 57) || (97 ≤ c.toNat && c.toNat ≤ 102) ||
    (65 ≤ c.toNat && c.toNat ≤ 70)

/-- The `isMongoId` validator of express-validator: 24 hex characters. -/
def isMongoId (s : String) : Bool :=
  s.length == 24 && s.data.all isHexChar

/-- The `isLength({min, max})` validator applied to a byte-counted body
field. -/
def isLengthBetween (lo hi n : Nat) : Bool :=
  decide (lo ≤ n) && decide (n ≤ hi)

/-- Outcome of an HTTP handler: the response it writes. `validationError`
is the 400 produced by `validateRequest`; `notFoundErr` is a 404 carrying
its error string; `serverError` is the catch-all 500. -/
inductive HttpResult where
  | created (m : Message)
  | okMsg (s : String)
  | jsonList (ms : List Message)
  | validationError
  | notFoundErr (s : String)
  | serverError (s : String)
deriving DecidableEq

/-- Request body of `POST /rooms/:roomId/messages`; `messageType` arrives
as a raw string checked by `isIn(['text', 'file', 'image'])`. -/
structure SendBody where
  content : List Nat
  messageType : String
  replyTo : Option String := none
deriving DecidableEq

/-- Parse the already-validated `messageType` string. -/
def parseMessageType (s : String) : MessageType :=
  if s == "file" then .file
  else if s == "image" then .image
  else .text

/-- `POST /rooms/:roomId/messages`: validators `param('roomId').isMongoId()`,
`body('content').isLength({min: 1, max: 5000})` and
`body('messageType').isIn(['text', 'file', 'image'])`, rejected with 400 by
`validateRequest`; then `MessageService.sendMessage` with the principal's
id and display name (falling back to email); a thrown error becomes a 500
`Failed to send message`. -/
def postRoomMessage (user : Principal) (roomId : String) (body : SendBody)
    (now : Nat) (rng : Nat → Nat) (st : DbState) : HttpResult × DbState :=
  if !(isMongoId roomId && isLengthBetween 1 5000 body.content.length &&
      (body.messageType == "text" || body.messageType == "file" ||
        body.messageType == "image")) then
    (.validationError, st)
  else
    match MessageService.sendMessage
        { chatId := roomId
          senderId := user.id
          senderName := user.displayName.getD user.email
          content := body.content
          messageType := parseMessageType body.messageType
          replyTo := body.replyTo } now rng st with
    | .ok (m, st') => (.created m, st')
    | .error _ => (.serverError "Failed to send message", st)

/-- `GET /rooms/:roomId/messages`: validator `param('roomId').isMongoId()`,
then `MessageService.getMessages` with defaulted `limit`/`skip`. -/
def getRoomMessages (roomId : String) (limit skip : Nat) (st : DbState) :
    HttpResult × DbState :=
  if !isMongoId roomId then (.validationError, st)
  else (.jsonList (MessageService.getMessages roomId limit skip st), st)

/-- `PUT /messages/:messageId`: validators `param('messageId').isMongoId()`
and `body('content').isLength({min: 1, max: 5000})`; then
`MessageService.editMessage`; a `false` result — message missing or
requester not the sender — becomes the single combined 404
`Message not found or unauthorized`. -/
def putMessage (user : Principal) (messageId : String) (content : List Nat)
    (now : Nat) (rng : Nat → Nat) (st : DbState) : HttpResult × DbState :=
  if !(isMongoId messageId && isLengthBetween 1 5000 content.length) then
    (.validationError, st)
  else
    let r := MessageService.editMessage messageId user.id content now rng st
    if r.1 then (.okMsg "Message updated successfully", r.2)
    else (.notFoundErr "Message not found or unauthorized", r.2)

/-- `DELETE /messages/:messageId`: validator
`param('messageId').isMongoId()`; then `MessageService.deleteMessage`; a
`false` result becomes the same combined 404
`Message not found or unauthorized`. -/
def deleteMessageRoute (user : Principal) (messageId : String)
    (st : DbState) : HttpResult × DbState :=
  if !isMongoId messageId then (.validationError, st)
  else
    let r := MessageService.deleteMessage messageId user.id st
    if r.1 then (.okMsg "Message deleted successfully", r.2)
    else (.notFoundErr "Message not found or unauthorized", r.2)

end messageRoutes

namespace socketHandlers

/-- A live socket.io connection: socket id, the authenticated user bound by
the auth middleware, and the set of rooms it has joined via `socket.join`. -/
structure Session where
  sid : String
  user : Principal
  rooms : List String
deriving DecidableEq

/-- The socket server state: all connected sessions plus the database. -/
structure SocketState where
  sessions : List Session
  db : DbState
deriving DecidableEq

/-- The events emitted by the socket handlers. -/
inductive SocketEvent where
  | newMessage (m : Message)
  | messageEdited (id : String) (content : List Nat) (editedAt : Nat)
  | messageDeleted (id : String)
  | userTyping (userId userName : String)
  | userStoppedTyping (userId : String)
  | errorEvent (s : String)
deriving DecidableEq

/-- `io.to(room).emit(e)`: deliver to every session joined to `room`. -/
def ioTo (room : String) (e : SocketEvent) (sessions : List Session) :
    List (String × SocketEvent) :=
  (sessions.filter (fun s => s.rooms.contains room)).map (fun s => (s.sid, e))

/-- `socket.to(room).emit(e)`: deliver to every session joined to `room`
except the sender. -/
def socketTo (senderSid room : String) (e : SocketEvent)
    (sessions : List Session) : List (String × SocketEvent) :=
  (sessions.filter (fun s => s.rooms.contains room && !(s.sid == senderSid))).map
    (fun s => (s.sid, e))

/-- `socket.broadcast.emit(e)`: deliver to EVERY connected session except
the sender, regardless of room membership. -/
def broadcastAll (senderSid : String) (e : SocketEvent)
    (sessions : List Session) : List (String × SocketEvent) :=
  (sessions.filter (fun s => !(s.sid == senderSid))).map (fun s => (s.sid, e))

/-- `socket.emit(e)`: deliver to the sender only. -/
def emitSelf (senderSid : String) (e : SocketEvent) :
    List (String × SocketEvent) :=
  [(senderSid, e)]

/-- The `send-message` handler: `MessageService.sendMessage`, then
`io.to(chatId).emit('new-message', message)`; on a thrown error the sender
alone gets an error event. -/
def handleSendMessage (sender : Session) (chatId : String)
    (content : List Nat) (messageType : MessageType)
    (replyTo : Option String) (now : Nat) (rng : Nat → Nat)
    (st : SocketState) : SocketState × List (String × SocketEvent) :=
  match MessageService.sendMessage
      { chatId := chatId
        senderId := sender.user.id
        senderName := sender.user.displayName.getD sender.user.email
        content := content
        messageType := messageType
        replyTo := replyTo } now rng st.db with
  | .ok (m, db') => ({ st with db := db' }, ioTo chatId (.newMessage m) st.sessions)
  | .error _ => (st, emitSelf sender.sid (.errorEvent "Failed to send message"))

/-- The `typing-start` handler: `socket.to(chatId)` — the room minus the
sender. -/
def handleTypingStart (sender : Session) (chatId : String)
    (st : SocketState) : List (String × SocketEvent) :=
  socketTo sender.sid chatId
    (.userTyping sender.user.id (sender.user.displayName.getD sender.user.email))
    st.sessions

/-- The `typing-stop` handler: `socket.to(chatId)`. -/
def handleTypingStop (sender : Session) (chatId : String)
    (st : SocketState) : List (String × SocketEvent) :=
  socketTo sender.sid chatId (.userStoppedTyping sender.user.id) st.sessions

/-- The `edit-message` handler: on success emits `message-edited` to the
sender AND `socket.broadcast.emit`s it to every other connected session —
room membership is not consulted. -/
def handleEditMessage (sender : Session) (messageId : String)
    (content : List Nat) (now : Nat) (rng : Nat → Nat) (st : SocketState) :
    SocketState × List (String × SocketEvent) :=
  let r := MessageService.editMessage messageId sender.user.id content now rng st.db
  if r.1 then
    let e := SocketEvent.messageEdited messageId content now
    ({ st with db := r.2 }, emitSelf sender.sid e ++ broadcastAll sender.sid e st.sessions)
  else
    ({ st with db := r.2 }, emitSelf sender.sid (.errorEvent "Failed to edit message"))

/-- The `delete-message` handler: on success emits `message-deleted` to the
sender AND `socket.broadcast.emit`s it to every other connected session —
room membership is not consulted. -/
def handleDeleteMessage (sender : Session) (messageId : String)
    (st : SocketState) : SocketState × List (String × SocketEvent) :=
  let r := MessageService.deleteMessage messageId sender.user.id st.db
  if r.1 then
    let e := SocketEvent.messageDeleted messageId
    ({ st with db := r.2 }, emitSelf sender.sid e ++ broadcastAll sender.sid e st.sessions)
  else
    ({ st with db := r.2 }, emitSelf sender.sid (.errorEvent "Failed to delete message"))

end socketHandlers

/-- A constant entropy stream of zeros. -/
def rng0 : Nat → Nat := fun _ => 0

/-- A constant entropy stream of ones. -/
def rng1 : Nat → Nat := fun _ => 1

/-- A concrete service key for concrete evaluations. -/
def keyW : List Nat := [1, 2, 3]

/-- The empty database. -/
def dbEmpty : DbState := {}

/-- Concrete room-creation input (the `Omit<ChatRoom, '_id' | 'createdAt'>`
payload). -/
def roomDataW : ChatRoom :=
  { name := "general", participants := ["alice"], createdBy := "alice",
    isPrivate := false }

/-- A concrete stored room with key `keyW`. -/
def roomW : ChatRoom :=
  { _id := some "r1", name := "general", participants := ["alice"],
    createdBy := "alice", isPrivate := false, encryptionKey := some keyW }

/-- A concrete stored message in room `r1` sent by `alice`. -/
def msgW : Message :=
  { _id := some "7", chatId := "r1", senderId := "alice",
    senderName := "Alice", content := [104], messageType := .text,
    timestamp := 1 }

/-- Database holding `roomW` and `msgW`. -/
def dbW : DbState := { chatrooms := [roomW], messages := [msgW], nextId := 8 }

/-- Session of `alice`, joined to room `r1`. -/
def sessA : socketHandlers.Session :=
  { sid := "a", user := { id := "alice", email := "a@x" }, rooms := ["r1"] }

/-- Session of `carol`, joined to no room at all. -/
def sessC : socketHandlers.Session :=
  { sid := "c", user := { id := "carol", email := "c@x" }, rooms := [] }

/-- Socket server state with sessions `a` and `c` over `dbW`. -/
def sockW : socketHandlers.SocketState :=
  { sessions := [sessA, sessC], db := dbW }

/-- A well-formed encryption of `[104, 105]` under `keyW`. -/
def encGood : EncryptionService.EncryptedData :=
  EncryptionService.encrypt [104, 105] keyW rng0

/-- The same record with a corrupted authentication tag. -/
def encBad : EncryptionService.EncryptedData :=
  { encGood with tag := some 0 }

/-- Stored message whose ciphertext decrypts correctly. -/
def msgGood : Message :=
  { _id := some "1", chatId := "r1", senderId := "alice", senderName := "A",
    content := [], encryptedContent := some encGood, messageType := .text,
    timestamp := 1 }

/-- Stored message whose ciphertext fails tag verification. -/
def msgBad : Message :=
  { _id := some "2", chatId := "r1", senderId := "alice", senderName := "A",
    content := [], encryptedContent := some encBad, messageType := .text,
    timestamp := 2 }

/-- Database with one decryptable and one corrupted message in `r1`. -/
def dbW7 : DbState :=
  { chatrooms := [roomW], messages := [msgGood, msgBad], nextId := 3 }

/-- A concrete authenticated principal. -/
def userW : Principal := { id := "u1", email := "u@x" }

/-- A concrete principal who authored none of the stored messages. -/
def userBob : Principal := { id := "bob", email := "b@x" }

/-- A syntactically valid Mongo ObjectId. -/
def validId : String := "0123456789abcdef01234567"

/-- Stored message (Mongo-id-shaped `_id`) in `r1` sent by `alice`. -/
def msgVid : Message :=
  { _id := some validId, chatId := "r1", senderId := "alice",
    senderName := "Alice", content := [104], messageType := .text,
    timestamp := 1 }

/-- Database holding `roomW` and `msgVid`. -/
def dbC10 : DbState :=
  { chatrooms := [roomW], messages := [msgVid], nextId := 9 }

/-- Concrete `sendMessage` payload for room `r1`. -/
def dataC3 : Message :=
  { chatId := "r1", senderId := "alice", senderName := "Alice",
    content := [104, 105], messageType := .text }

/-- Database holding `roomW` and no messages yet. -/
def dbRoom : DbState := { chatrooms := [roomW], messages := [], nextId := 0 }

theorem mem_insertDesc {α : Type} (key : α → Nat) (x : α) (l : List α)
    (z : α) : z ∈ insertDesc key x l ↔ z = x ∨ z ∈ l := by
  induction l with
  | nil => simp [insertDesc]
  | cons y ys ih =>
      by_cases h : key y ≤ key x
      · simp [insertDesc, h]
      · simp only [insertDesc, if_neg h, List.mem_cons, ih]
        tauto

theorem pairwise_insertDesc {α : Type} (key : α → Nat) (x : α) (l : List α)
    (h : l.Pairwise (fun a b => key b ≤ key a)) :
    (insertDesc key x l).Pairwise (fun a b => key b ≤ key a) := by
  induction l with
  | nil => simp [insertDesc]
  | cons y ys ih =>
      rcases List.pairwise_cons.mp h with ⟨hy, hys⟩
      by_cases hle : key y ≤ key x
      · simp only [insertDesc, if_pos hle]
        refine List.pairwise_cons.mpr ⟨?_, h⟩
        intro z hz
        rcases List.mem_cons.mp hz with rfl | hz
        · exact hle
        · exact le_trans (hy z hz) hle
      · simp only [insertDesc, if_neg hle]
        refine List.pairwise_cons.mpr ⟨?_, ih hys⟩
        intro z hz
        rcases (mem_insertDesc key x ys z).mp hz with rfl | hz
        · exact le_of_not_le hle
        · exact hy z hz

theorem pairwise_sortDesc {α : Type} (key : α → Nat) (l : List α) :
    (sortDesc key l).Pairwise (fun a b => key b ≤ key a) := by
  induction l with
  | nil => exact List.Pairwise.nil
  | cons x xs ih => exact pairwise_insertDesc key x _ ih

theorem decryptRecord_encryptedContent (key : List Nat) (m : Message) :
    (MessageService.decryptRecord key m).encryptedContent =
      m.encryptedContent := by
  cases he : m.encryptedContent with
  | none => simp [MessageService.decryptRecord, he]
  | some e =>
      cases hd : EncryptionService.decrypt e key <;>
        simp [MessageService.decryptRecord, he, hd]

theorem decryptRecord_timestamp (key : List Nat) (m : Message) :
    (MessageService.decryptRecord key m).timestamp = m.timestamp := by
  cases he : m.encryptedContent with
  | none => simp [MessageService.decryptRecord, he]
  | some e =>
      cases hd : EncryptionService.decrypt e key <;>
        simp [MessageService.decryptRecord, he, hd]

theorem decryptRecord_content (key : List Nat) (m : Message)
    (e : EncryptionService.EncryptedData) (he : m.encryptedContent = some e) :
    (MessageService.decryptRecord key m).content =
      match EncryptionService.decrypt e key with
      | some p => p
      | none => MessageService.decryptionFailedMarker := by
  cases hd : EncryptionService.decrypt e key <;>
    simp [MessageService.decryptRecord, he, hd]

theorem messageMatch_eq_false {st : DbState} {id uid : String}
    (h : ∀ m ∈ st.messages, ¬(m._id = some id ∧ m.senderId = uid)) :
    ∀ m ∈ st.messages,
      (m._id == some id && m.senderId == uid) = false := by
  intro m hm
  have := h m hm
  by_cases h1 : m._id = some id
  · by_cases h2 : m.senderId = uid
    · exact absurd ⟨h1, h2⟩ this
    · simp [h2]
  · simp [h1]

theorem editMessage_eq_false_of_no_match (st : DbState) (id uid : String)
    (c : List Nat) (now : Nat) (rng : Nat → Nat)
    (h : ∀ m ∈ st.messages, ¬(m._id = some id ∧ m.senderId = uid)) :
    MessageService.editMessage id uid c now rng st = (false, st) := by
  have hfind :
      st.messages.find?
        (fun m => m._id == some id && m.senderId == uid) = none := by
    rw [List.find?_eq_none]
    intro m hm
    simp [messageMatch_eq_false h m hm]
  simp [MessageService.editMessage, hfind]

theorem deleteMessage_eq_false_of_no_match (st : DbState) (id uid : String)
    (h : ∀ m ∈ st.messages, ¬(m._id = some id ∧ m.senderId = uid)) :
    MessageService.deleteMessage id uid st = (false, st) := by
  have hany :
      st.messages.any
        (fun m => m._id == some id && m.senderId == uid) = false := by
    rw [List.any_eq_false]
    intro m hm
    simp [messageMatch_eq_false h m hm]
  simp [MessageService.deleteMessage, hany]


/-- C1 counterexample: two rooms created from the empty database are
distinct rooms (different ids) yet carry the very same encryption key — the
single static `MessageService.encryptionKey` — so "no two rooms share a
key" fails at this concrete input. -/
theorem createChatRoom_rooms_share_key :
    (MessageService.createChatRoom keyW roomDataW 0 dbEmpty).1._id ≠
      (MessageService.createChatRoom keyW roomDataW 1
        (MessageService.createChatRoom keyW roomDataW 0 dbEmpty).2).1._id ∧
    (MessageService.createChatRoom keyW roomDataW 0 dbEmpty).1.encryptionKey =
      (MessageService.createChatRoom keyW roomDataW 1
        (MessageService.createChatRoom keyW roomDataW 0 dbEmpty).2).1.encryptionKey ∧
    (MessageService.createChatRoom keyW roomDataW 0 dbEmpty).1.encryptionKey ≠
      none := by
  decide

/-- C1 (corrected): every room is bound, at creation, to exactly one key —
the process-wide static service key — and no later operation of the message
service ever rewrites a stored room, so the key is fixed for the room's
lifetime; but key uniqueness across rooms fails: every created room
receives the same service key, so any two rooms share a key. -/
theorem createChatRoom_key_unique_per_room_not_across_rooms
    (sk : List Nat) (data : ChatRoom) (now : Nat) (st : DbState) :
    (MessageService.createChatRoom sk data now st).1.encryptionKey = some sk ∧
    (MessageService.createChatRoom sk data now st).2.chatrooms =
      st.chatrooms ++ [(MessageService.createChatRoom sk data now st).1] ∧
    (∀ d n rng,
      (match MessageService.sendMessage d n rng st with
       | .ok (_, st') => st'.chatrooms
       | .error _ => st.chatrooms) = st.chatrooms) ∧
    (∀ id uid, (MessageService.deleteMessage id uid st).2.chatrooms =
      st.chatrooms) ∧
    (∀ id uid c n rng,
      (MessageService.editMessage id uid c n rng st).2.chatrooms =
        st.chatrooms) ∧
    (∀ d2 n2,
      (MessageService.createChatRoom sk d2 n2
          (MessageService.createChatRoom sk data now st).2).1.encryptionKey =
        (MessageService.createChatRoom sk data now st).1.encryptionKey) := by
  refine ⟨rfl, rfl, ?_, ?_, ?_, fun d2 n2 => rfl⟩
  · intro d n rng
    unfold MessageService.sendMessage
    cases (MessageService.getChatRoom d.chatId st).bind (·.encryptionKey) <;>
      rfl
  · intro id uid
    dsimp only [MessageService.deleteMessage]
    split <;> rfl
  · intro id uid c n rng
    dsimp only [MessageService.editMessage]
    split
    · rfl
    · split <;> rfl

/-- C2 (code bug): the `delete-message` handler broadcasts
`message-deleted` with `socket.broadcast.emit`, so session `c` — connected
but joined to no room at all — receives the deletion event of a message
scoped to room `r1`, violating the fan-out confidentiality boundary of
spec §4.6 (spec §9 flags this unbounded broadcast as a likely bug). -/
theorem deleteBroadcast_reaches_nonmember :
    ("c", socketHandlers.SocketEvent.messageDeleted "7") ∈
      (socketHandlers.handleDeleteMessage sessA "7" sockW).2 ∧
    sessC ∈ sockW.sessions ∧
    sessC.rooms = [] ∧
    sockW.db.messages.any (fun m => m._id == some "7" && m.chatId == "r1") =
      true := by
  decide

/-- C3 (code bug): `sendMessage` builds the inserted document by spreading
`messageData`, so the persisted record carries the plaintext `content`
field (here the bytes `[104, 105]`) alongside the ciphertext; `editMessage`
likewise persists the new plaintext via its `$set`. The claim that only
ciphertext, nonce and tag reach durable storage is violated. -/
theorem sendMessage_persists_plaintext :
    (match MessageService.sendMessage dataC3 5 rng0 dbRoom with
     | .ok (_, st') =>
        st'.messages.map (fun m => (m.content, m.encryptedContent.isSome))
     | .error _ => []) =
      [([104, 105], true)] ∧
    (MessageService.editMessage "7" "alice" [120] 9 rng0 dbW).2.messages.map
      (·.content) = [[120]] := by
  decide

/-- C4 (confirmed): decrypting the output of `encrypt` under the same
generated key returns the original plaintext, for every plaintext, every
key produced by `generateKey` and every entropy stream used by the
encryption call. -/
theorem encrypt_decrypt_roundtrip (text : List Nat)
    (rngKey rng : Nat → Nat) :
    EncryptionService.decrypt
      (EncryptionService.encrypt text (EncryptionService.generateKey rngKey) rng)
      (EncryptionService.generateKey rngKey) = some text := by
  unfold EncryptionService.encrypt EncryptionService.decrypt
  simp [EncryptionService.cipherCore_cipherCore]

/-- C5 (code bug): `encrypt` draws a fresh random nonce and returns it, but
`crypto.createCipher` takes no IV, so the nonce is not an input to the
encryption: at this concrete input two calls with different entropy return
different nonces yet byte-identical ciphertexts and tags. -/
theorem encrypt_nonce_not_input_to_cipher :
    (EncryptionService.encrypt [104, 105] keyW rng0).iv ≠
      (EncryptionService.encrypt [104, 105] keyW rng1).iv ∧
    (EncryptionService.encrypt [104, 105] keyW rng0).encrypted =
      (EncryptionService.encrypt [104, 105] keyW rng1).encrypted ∧
    (EncryptionService.encrypt [104, 105] keyW rng0).tag =
      (EncryptionService.encrypt [104, 105] keyW rng1).tag := by
  decide

/-- C6 (confirmed): `editMessage` and `deleteMessage` filter by
`{_id, senderId}`, so they succeed only when the requester is the original
sender, and an attempt by any other principal returns the failure result
(`false`, the service's Unauthorized outcome) and leaves the store
completely unchanged. -/
theorem edit_delete_only_by_sender (st : DbState) (id uid : String)
    (c : List Nat) (now : Nat) (rng : Nat → Nat) :
    ((MessageService.editMessage id uid c now rng st).1 = true →
      ∃ m ∈ st.messages, m._id = some id ∧ m.senderId = uid) ∧
    ((∀ m ∈ st.messages, m._id = some id → m.senderId ≠ uid) →
      MessageService.editMessage id uid c now rng st = (false, st)) ∧
    ((MessageService.deleteMessage id uid st).1 = true →
      ∃ m ∈ st.messages, m._id = some id ∧ m.senderId = uid) ∧
    ((∀ m ∈ st.messages, m._id = some id → m.senderId ≠ uid) →
      MessageService.deleteMessage id uid st = (false, st)) := by
  refine ⟨?_, ?_, ?_, ?_⟩
  · intro h
    cases hf : st.messages.find?
        (fun m => m._id == some id && m.senderId == uid) with
    | none => simp [MessageService.editMessage, hf] at h
    | some m =>
        have hm := List.mem_of_find?_eq_some hf
        have hp := List.find?_some hf
        simp only [Bool.and_eq_true, beq_iff_eq] at hp
        exact ⟨m, hm, hp⟩
  · intro h
    exact editMessage_eq_false_of_no_match st id uid c now rng
      (fun m hm hc => h m hm hc.1 hc.2)
  · intro h
    have hany : st.messages.any
        (fun m => m._id == some id && m.senderId == uid) = true := by
      by_contra hf
      have hf' := Bool.eq_false_iff.mpr hf
      simp [MessageService.deleteMessage, hf'] at h
    obtain ⟨m, hm, hp⟩ := List.any_eq_true.mp hany
    simp only [Bool.and_eq_true, beq_iff_eq] at hp
    exact ⟨m, hm, hp⟩
  · intro h
    exact deleteMessage_eq_false_of_no_match st id uid
      (fun m hm hc => h m hm hc.1 hc.2)

/-- C6 witness: in the concrete store `dbW`, message `7` was sent by
`alice`; an edit and a delete attempt by `bob` both return `false` and
leave the database unchanged. -/
theorem edit_delete_only_by_sender_witness :
    MessageService.editMessage "7" "bob" [120] 9 rng0 dbW = (false, dbW) ∧
    MessageService.deleteMessage "7" "bob" dbW = (false, dbW) :=
  ⟨(edit_delete_only_by_sender dbW "7" "bob" [120] 9 rng0).2.1 (by decide),
   (edit_delete_only_by_sender dbW "7" "bob" [120] 9 rng0).2.2.2 (by decide)⟩

/-- C7 (confirmed): when the room and its key exist, `getMessages` returns
exactly as many records as the requested page — a decryption failure never
aborts the listing — and every returned record with an `encryptedContent`
carries either its decrypted plaintext or, when decryption fails, the
sentinel decode-failed marker. -/
theorem getMessages_decode_failure_contained (chatId : String)
    (limit skip : Nat) (st : DbState) (room : ChatRoom) (key : List Nat)
    (hr : MessageService.getChatRoom chatId st = some room)
    (hk : room.encryptionKey = some key) :
    (MessageService.getMessages chatId limit skip st).length =
      (MessageService.newestFirstPage chatId limit skip st).length ∧
    ∀ m ∈ MessageService.getMessages chatId limit skip st,
      ∀ e, m.encryptedContent = some e →
        m.content =
          match EncryptionService.decrypt e key with
          | some p => p
          | none => MessageService.decryptionFailedMarker := by
  have hbind : (MessageService.getChatRoom chatId st).bind (·.encryptionKey) =
      some key := by
    rw [hr]
    exact hk
  constructor
  · simp [MessageService.getMessages, hbind]
  · intro m hm e he
    simp only [MessageService.getMessages, hbind, List.mem_reverse,
      List.mem_map] at hm
    obtain ⟨m₀, hm₀, rfl⟩ := hm
    have he₀ : m₀.encryptedContent = some e := by
      rw [← decryptRecord_encryptedContent key m₀]
      exact he
    exact decryptRecord_content key m₀ e he₀

/-- C7 witness: in `dbW7`, room `r1` holds one well-formed record and one
record with a corrupted tag; the listing still returns both, the first
decrypted, the second as the sentinel marker. -/
theorem getMessages_decode_failure_contained_witness :
    (MessageService.getMessages "r1" 50 0 dbW7).length =
      (MessageService.newestFirstPage "r1" 50 0 dbW7).length ∧
    (MessageService.getMessages "r1" 50 0 dbW7).map (·.content) =
      [[104, 105], MessageService.decryptionFailedMarker] :=
  ⟨(getMessages_decode_failure_contained "r1" 50 0 dbW7 roomW keyW
      (by decide) rfl).1,
   by decide⟩

/-- C8 (confirmed): for every room and page, `getMessages` reads the
newest-first page of the per-room log (timestamps pairwise descending) and
returns its reverse, so the output is in ascending chronological order. -/
theorem getMessages_ascending (chatId : String) (limit skip : Nat)
    (st : DbState) :
    ((MessageService.newestFirstPage chatId limit skip st).Pairwise
      fun a b => b.timestamp ≤ a.timestamp) ∧
    ((MessageService.getMessages chatId limit skip st).Pairwise
      fun a b => a.timestamp ≤ b.timestamp) ∧
    MessageService.getMessages chatId limit skip st =
      (match (MessageService.getChatRoom chatId st).bind (·.encryptionKey) with
       | some key =>
          (MessageService.newestFirstPage chatId limit skip st).map
            (MessageService.decryptRecord key)
       | none => MessageService.newestFirstPage chatId limit skip st).reverse := by
  have hpage : (MessageService.newestFirstPage chatId limit skip st).Pairwise
      (fun a b => b.timestamp ≤ a.timestamp) := by
    have hs := pairwise_sortDesc (fun m : Message => m.timestamp)
      (st.messages.filter (fun m => m.chatId == chatId))
    exact List.Pairwise.sublist
      ((List.take_sublist _ _).trans (List.drop_sublist _ _)) hs
  refine ⟨hpage, ?_, rfl⟩
  cases hb : (MessageService.getChatRoom chatId st).bind (·.encryptionKey) with
  | none =>
      simp only [MessageService.getMessages, hb, List.pairwise_reverse]
      exact hpage
  | some key =>
      simp only [MessageService.getMessages, hb, List.pairwise_reverse,
        List.pairwise_map]
      exact hpage.imp (by
        intro a b h
        simpa [decryptRecord_timestamp] using h)

/-- C9 counterexample: with a well-formed request (valid Mongo id,
non-empty content, recognized kind) against a database in which the target
room does not exist, the send path does not produce a NotFound: the service
throws `Chat room encryption key not found` and the route surfaces the
generic 500 `Failed to send message`. -/
theorem postRoomMessage_missing_room_not_notfound :
    messageRoutes.postRoomMessage userW validId
        { content := [104], messageType := "text" } 0 rng0 dbEmpty =
      (messageRoutes.HttpResult.serverError "Failed to send message",
        dbEmpty) ∧
    MessageService.getChatRoom validId dbEmpty = none ∧
    (MessageService.sendMessage
        { chatId := validId, senderId := "u1", senderName := "u@x",
          content := [104], messageType := MessageType.text }
        0 rng0 dbEmpty).toOption = none := by
  decide

/-- C9 (corrected): a send is rejected with a 400 ValidationError — leaving
the state unchanged — when the content is empty, when it exceeds 5000
units, or when the kind is outside the recognized set (at the HTTP layer
only `text`, `file`, `image`; so anything outside text/file/image/system is
indeed rejected); but a send to a non-existent room (or a room without a
key) fails with the generic 500 `Failed to send message`, not NotFound,
also leaving the state unchanged. -/
theorem postRoomMessage_validation_and_missing_room (user : Principal)
    (roomId : String) (body : messageRoutes.SendBody) (now : Nat)
    (rng : Nat → Nat) (st : DbState) :
    (body.content.length = 0 →
      messageRoutes.postRoomMessage user roomId body now rng st =
        (.validationError, st)) ∧
    (5000 < body.content.length →
      messageRoutes.postRoomMessage user roomId body now rng st =
        (.validationError, st)) ∧
    (¬(body.messageType = "text" ∨ body.messageType = "file" ∨
        body.messageType = "image") →
      messageRoutes.postRoomMessage user roomId body now rng st =
        (.validationError, st)) ∧
    (messageRoutes.isMongoId roomId = true →
      1 ≤ body.content.length → body.content.length ≤ 5000 →
      (body.messageType = "text" ∨ body.messageType = "file" ∨
        body.messageType = "image") →
      (MessageService.getChatRoom roomId st).bind (·.encryptionKey) = none →
      messageRoutes.postRoomMessage user roomId body now rng st =
        (.serverError "Failed to send message", st)) := by
  refine ⟨?_, ?_, ?_, ?_⟩
  · intro h
    have hL : messageRoutes.isLengthBetween 1 5000 body.content.length =
        false := by
      simp [messageRoutes.isLengthBetween, h]
    simp [messageRoutes.postRoomMessage, hL]
  · intro h
    have hL : messageRoutes.isLengthBetween 1 5000 body.content.length =
        false := by
      simp only [messageRoutes.isLengthBetween, Bool.and_eq_false_iff,
        decide_eq_false_iff_not]
      omega
    simp [messageRoutes.postRoomMessage, hL]
  · intro h
    have e1 : (body.messageType == "text") = false :=
      beq_eq_false_iff_ne.mpr (fun hh => h (Or.inl hh))
    have e2 : (body.messageType == "file") = false :=
      beq_eq_false_iff_ne.mpr (fun hh => h (Or.inr (Or.inl hh)))
    have e3 : (body.messageType == "image") = false :=
      beq_eq_false_iff_ne.mpr (fun hh => h (Or.inr (Or.inr hh)))
    simp [messageRoutes.postRoomMessage, e1, e2, e3]
  · intro hm h1 h2 hk hb
    have hL : messageRoutes.isLengthBetween 1 5000 body.content.length =
        true := by
      unfold messageRoutes.isLengthBetween
      rw [decide_eq_true h1, decide_eq_true h2]
      rfl
    have hKind : (body.messageType == "text" || body.messageType == "file" ||
        body.messageType == "image") = true := by
      rcases hk with h | h | h <;> simp [h]
    simp [messageRoutes.postRoomMessage, hm, hL, hKind,
      MessageService.sendMessage, hb]

/-- C9 witness: the empty-content, unrecognized-kind and missing-room cases
of the corrected statement, evaluated at concrete requests against the
empty database. -/
theorem postRoomMessage_validation_witness :
    messageRoutes.postRoomMessage userW validId
        { content := [], messageType := "text" } 0 rng0 dbEmpty =
      (.validationError, dbEmpty) ∧
    messageRoutes.postRoomMessage userW validId
        { content := [104], messageType := "video" } 0 rng0 dbEmpty =
      (.validationError, dbEmpty) ∧
    messageRoutes.postRoomMessage userW validId
        { content := [104], messageType := "text" } 0 rng0 dbEmpty =
      (.serverError "Failed to send message", dbEmpty) :=
  ⟨(postRoomMessage_validation_and_missing_room userW validId
      { content := [], messageType := "text" } 0 rng0 dbEmpty).1 rfl,
   (postRoomMessage_validation_and_missing_room userW validId
      { content := [104], messageType := "video" } 0 rng0 dbEmpty).2.2.1
      (by decide),
   (postRoomMessage_validation_and_missing_room userW validId
      { content := [104], messageType := "text" } 0 rng0 dbEmpty).2.2.2
      (by decide) (by decide) (by decide) (Or.inl rfl) (by decide)⟩

/-- C10 (confirmed): a non-existent message id and an authorization failure
are indistinguishable: in both cases `editMessage`/`deleteMessage` return
the same boolean `false`, and the HTTP layer maps both to the identical
combined 404 response `Message not found or unauthorized`. -/
theorem edit_delete_notfound_unauthorized_collapse (st : DbState)
    (user : Principal) (id : String) (content : List Nat) (now : Nat)
    (rng : Nat → Nat)
    (hid : messageRoutes.isMongoId id = true)
    (h1 : 1 ≤ content.length) (h2 : content.length ≤ 5000) :
    ((∀ m ∈ st.messages, m._id ≠ some id) →
      (MessageService.editMessage id user.id content now rng st).1 = false ∧
      (MessageService.deleteMessage id user.id st).1 = false ∧
      messageRoutes.putMessage user id content now rng st =
        (.notFoundErr "Message not found or unauthorized", st) ∧
      messageRoutes.deleteMessageRoute user id st =
        (.notFoundErr "Message not found or unauthorized", st)) ∧
    ((∀ m ∈ st.messages, m._id = some id → m.senderId ≠ user.id) →
      (MessageService.editMessage id user.id content now rng st).1 = false ∧
      (MessageService.deleteMessage id user.id st).1 = false ∧
      messageRoutes.putMessage user id content now rng st =
        (.notFoundErr "Message not found or unauthorized", st) ∧
      messageRoutes.deleteMessageRoute user id st =
        (.notFoundErr "Message not found or unauthorized", st)) := by
  have main : ∀ _ : (∀ m ∈ st.messages,
      ¬(m._id = some id ∧ m.senderId = user.id)),
      (MessageService.editMessage id user.id content now rng st).1 = false ∧
      (MessageService.deleteMessage id user.id st).1 = false ∧
      messageRoutes.putMessage user id content now rng st =
        (.notFoundErr "Message not found or unauthorized", st) ∧
      messageRoutes.deleteMessageRoute user id st =
        (.notFoundErr "Message not found or unauthorized", st) := by
    intro h
    have he := editMessage_eq_false_of_no_match st id user.id content now rng h
    have hd := deleteMessage_eq_false_of_no_match st id user.id h
    have hL : messageRoutes.isLengthBetween 1 5000 content.length = true := by
      unfold messageRoutes.isLengthBetween
      rw [decide_eq_true h1, decide_eq_true h2]
      rfl
    refine ⟨by rw [he], by rw [hd], ?_, ?_⟩
    · simp [messageRoutes.putMessage, hid, hL, he]
    · simp [messageRoutes.deleteMessageRoute, hid, hd]
  exact ⟨fun h => main (fun m hm hc => h m hm hc.1),
         fun h => main (fun m hm hc => h m hm hc.1 hc.2)⟩

/-- C10 witness: against the empty database (message id absent) and against
`dbC10` (message exists, sent by `alice`, requester `bob`), the PUT and
DELETE routes answer with the very same combined 404 response. -/
theorem edit_delete_notfound_unauthorized_collapse_witness :
    messageRoutes.putMessage userBob validId [120] 9 rng0 dbEmpty =
      (.notFoundErr "Message not found or unauthorized", dbEmpty) ∧
    messageRoutes.deleteMessageRoute userBob validId dbC10 =
      (.notFoundErr "Message not found or unauthorized", dbC10) :=
  ⟨((edit_delete_notfound_unauthorized_collapse dbEmpty userBob validId
      [120] 9 rng0 (by decide) (by decide) (by decide)).1 (by decide)).2.2.1,
   ((edit_delete_notfound_unauthorized_collapse dbC10 userBob validId
      [120] 9 rng0 (by decide) (by decide) (by decide)).2 (by decide)).2.2.2⟩
